import Mathlib

/-!
Shallow embedding of the CRUD factory module (CRUD operations generated per
Supabase table: idempotency cache, tenant-scoped operations, lifecycle
hooks, soft delete). Pure data is modelled directly; the storage
collaborator is modelled as a list of rows, time as an explicit
natural-number argument (milliseconds), and each operation returns its
result, the new state, and a trace of external effects (validation, hook
calls, storage reads and writes, revalidation). The production
authentication path is modelled (the development-only fallback branches of
getProfileId and getContext are outside every claim).
-/

deriving instance DecidableEq for Except

namespace CrudFactory

/-- Value of a record field or form field: a string or the null value
(JSON-level model of the values the factory manipulates). -/
inductive Val where
  | str (s : String)
  | null
deriving DecidableEq, Repr

/-- A form payload: association list from field names to values. -/
abbrev FormData := List (String × Val)

/-- A stored row. The columns the factory itself touches (id, the owner
column, archived_at, status) are structured fields; every other column
lives in attrs. archived_at holds an ISO timestamp string or null. -/
structure Row where
  id : String
  owner : String
  archived_at : Option String
  status : String
  attrs : List (String × Val)
deriving DecidableEq, Repr

/-- An idempotency cache entry: result plus the timestamp it was stored. -/
structure CacheEntry where
  result : Row
  timestamp : Nat
deriving DecidableEq, Repr

/-- The module-level idempotency cache: a map from caller-supplied keys to
entries, modelled as an association list (cacheSet keeps keys unique). The
cache is declared at module level in the source, outside the factory
function, so one cache is shared by every factory instance in the process. -/
abbrev Cache := List (String × CacheEntry)

/-- CACHE_TTL_MS = 5 * 60 * 1000 (5 minutes). -/
def CACHE_TTL_MS : Nat := 5 * 60 * 1000

/-- Map.get on the cache. -/
def cacheGet (c : Cache) (k : String) : Option CacheEntry :=
  (c.find? (fun p => p.1 == k)).map (fun p => p.2)

/-- Map.set on the cache: the entry for the key is overwritten
(last-write-wins). -/
def cacheSet (c : Cache) (k : String) (e : CacheEntry) : Cache :=
  (k, e) :: c.filter (fun p => p.1 != k)

/-- cleanupExpiredCache: delete every entry whose age strictly exceeds the
TTL, over the whole cache. -/
def cleanupExpiredCache (now : Nat) (c : Cache) : Cache :=
  c.filter (fun p => !(decide (now - p.2.timestamp > CACHE_TTL_MS)))

/-- getCachedResult: first purge expired entries from the whole cache, then
return the entry for the key if it exists and is within TTL. Returns the
possible hit together with the cache after cleanup (the source mutates the
shared map in place). -/
def getCachedResult (now : Nat) (c : Cache) (k : String) : Option Row × Cache :=
  let c1 := cleanupExpiredCache now c
  match cacheGet c1 k with
  | some e => (if now - e.timestamp ≤ CACHE_TTL_MS then some e.result else none, c1)
  | none => (none, c1)

/-- setCachedResult: store a result under the key at the current time. -/
def setCachedResult (now : Nat) (c : Cache) (k : String) (r : Row) : Cache :=
  cacheSet c k { result := r, timestamp := now }

/-- Error taxonomy of the operations. Hook callbacks may fail with any of
these; the source rethrows hook errors unwrapped. unsupportedOperation
models the error thrown by archive and unarchive when the table has no
soft delete. -/
inductive CrudError where
  | notAuthenticated
  | validationError (msg : String)
  | notFound
  | storageError (msg : String)
  | unsupportedOperation (table : String)
  | hookError (msg : String)
deriving DecidableEq, Repr

/-- Externally visible effects of one operation invocation, in order. -/
inductive Event where
  | validate
  | hookCall (name : String)
  | storageRead
  | storageWrite
  | revalidate
deriving DecidableEq, Repr

/-- OperationContext handed to lifecycle hooks. -/
structure OperationContext where
  operation : String
  entityType : String
  entityId : Option String
  userId : String
  timestamp : Nat
  metadata : List (String × Val)
deriving DecidableEq, Repr

/-- buildOperationContext from the source (metadata defaults to empty). -/
def buildOperationContext (operation entityType : String) (entityId : Option String)
    (userId : String) (timestamp : Nat) : OperationContext :=
  { operation := operation, entityType := entityType, entityId := entityId,
    userId := userId, timestamp := timestamp, metadata := [] }

/-- Optional lifecycle hook slots. Each callback returns unit or fails with
its own error. -/
structure Hooks where
  beforeCreate : Option (FormData → OperationContext → Except CrudError Unit) := none
  afterCreate : Option (Row → OperationContext → Except CrudError Unit) := none
  beforeUpdate : Option (String → FormData → OperationContext → Except CrudError Unit) := none
  afterUpdate : Option (Row → Option Row → OperationContext → Except CrudError Unit) := none
  beforeDelete : Option (String → OperationContext → Except CrudError Unit) := none
  afterDelete : Option (Row → OperationContext → Except CrudError Unit) := none
  beforeRead : Option (OperationContext → Except CrudError Unit) := none

/-- Default sort specification. -/
structure SortSpec where
  column : String
  ascending : Bool
deriving DecidableEq, Repr

/-- CRUDOptions: the optional configuration argument of the factory. -/
structure CRUDOptions where
  ownerIdColumn : Option String := none
  includeArchived : Option Bool := none
  revalidatePaths : Option (List String) := none
  selectQuery : Option String := none
  useProfileLookup : Option Bool := none
  hasSoftDelete : Option Bool := none
  defaultSort : Option SortSpec := none
  hooks : Hooks := {}

/-- determineOwnerColumn: option override, else the (empty) per-table map,
else owner_id. -/
def determineOwnerColumn (tableName : String) (options : CRUDOptions) : String :=
  match options.ownerIdColumn with
  | some c => c
  | none => "owner_id"

/-- The resolved configuration closed over by every generated operation. -/
structure Config where
  ownerIdColumn : String
  includeArchived : Bool
  revalidatePaths : List String
  selectQuery : String
  useProfileLookup : Bool
  hasSoftDelete : Bool
  defaultSort : SortSpec
deriving DecidableEq, Repr

/-- The config block at the top of createCRUDOperations, with its defaults. -/
def resolveConfig (tableName : String) (options : CRUDOptions) : Config :=
  { ownerIdColumn := determineOwnerColumn tableName options
    includeArchived := options.includeArchived.getD false
    revalidatePaths := options.revalidatePaths.getD ["/" ++ tableName]
    selectQuery := options.selectQuery.getD "*"
    useProfileLookup := options.useProfileLookup.getD false
    hasSoftDelete := options.hasSoftDelete.getD true
    defaultSort := options.defaultSort.getD { column := "created_at", ascending := false } }

/-- One factory instantiation: the factory arguments plus the external
collaborators (auth identity, profiles rows, the storage-generated row for
an insert). The schemas are the opaque validators: they return the
validated payload or a validation error. -/
structure Env where
  tableName : String
  insertSchema : FormData → Except CrudError FormData
  updateSchema : FormData → Except CrudError FormData
  options : CRUDOptions := {}
  auth : Option String := none
  profiles : List (String × String) := []
  genRow : FormData → Row

/-- The configuration resolved for this instance. -/
def Env.config (env : Env) : Config :=
  resolveConfig env.tableName env.options

/-- Mutable state an operation can touch: the process-wide idempotency
cache and the storage table rows. -/
structure St where
  cache : Cache
  table : List Row
deriving DecidableEq, Repr

/-- getContext, production path: the authenticated user id or
NotAuthenticated. -/
def getContext (env : Env) : Except CrudError String :=
  match env.auth with
  | some u => .ok u
  | none => .error .notAuthenticated

/-- getProfileId, production path: translate the auth user id into a
profile id through the profiles rows, falling back to the user id when no
profile row exists. -/
def getProfileId (env : Env) (userId : String) : String :=
  match (env.profiles.find? (fun p => p.1 == userId)).map (fun p => p.2) with
  | some pid => pid
  | none => userId

/-- The finalOwnerId step shared by every operation: profile indirection
when configured (a storage read), else the raw identity. -/
def resolveOwner (env : Env) (userId : String) : String × List Event :=
  if env.config.useProfileLookup then (getProfileId env userId, [.storageRead])
  else (userId, [])

/-- String suffix test (model of endsWith), written over the character
lists so it evaluates by kernel reduction. -/
def strEndsWith (s pat : String) : Bool :=
  List.isSuffixOf pat.data s.data

/-- A key is the id column or ends in the identifier suffix. -/
def isIdKey (k : String) : Bool :=
  k == "id" || strEndsWith k "_id"

/-- Empty-string-to-null coercion on identifier fields, applied to the raw
payload before validation. -/
def coerceEmptyIds (d : FormData) : FormData :=
  d.map (fun p => if isIdKey p.1 && p.2 == Val.str "" then (p.1, Val.null) else p)

/-- Object-spread override of one field: the supplied value wins over any
user-supplied value for the same key. -/
def setField (d : FormData) (k : String) (v : Val) : FormData :=
  d.filter (fun p => p.1 != k) ++ [(k, v)]

/-- Row scope used by every single-record operation: id column equals id
and the owner column equals the resolved owner. -/
def rowMatches (id owner : String) (r : Row) : Bool :=
  r.id == id && r.owner == owner

/-- Set one attribute of the unstructured part of a row. -/
def setAttr (attrs : List (String × Val)) (k : String) (v : Val) : List (String × Val) :=
  attrs.filter (fun p => p.1 != k) ++ [(k, v)]

/-- Apply one validated column assignment to a row. -/
def applyField (r : Row) (kv : String × Val) : Row :=
  match kv with
  | ("id", .str s) => { r with id := s }
  | ("status", .str s) => { r with status := s }
  | ("archived_at", .null) => { r with archived_at := none }
  | ("archived_at", .str s) => { r with archived_at := some s }
  | (k, v) => { r with attrs := setAttr r.attrs k v }

/-- Apply a validated update payload to a row. -/
def applyData (d : FormData) (r : Row) : Row :=
  d.foldl applyField r

/-- Model of Date.toISOString at a millisecond clock value. -/
def isoOf (n : Nat) : String :=
  toString n

/-- Query options accepted by getAll. -/
structure QueryOptions where
  filters : List (String × Val) := []
  sortBy : Option String := none
  sortOrder : Option String := none
  limit : Option Nat := none
  offset : Option Nat := none
deriving DecidableEq, Repr

/-- JS truthiness of an optional number: present and nonzero. -/
def truthyNat : Option Nat → Bool
  | some n => decide (n ≠ 0)
  | none => false

/-- The query built by getAll before execution: equality filters, the
archived exclusion, order, limit and range. -/
structure QueryPlan where
  eqFilters : List (String × Val)
  excludeArchived : Bool
  sortBy : String
  ascending : Bool
  limitVal : Option Nat
  rangeVal : Option (Nat × Nat)
deriving DecidableEq, Repr

/-- getAll query construction, including the truthiness conditions of the
source: limit applies when the limit option is truthy, range applies when
both offset and limit are truthy. -/
def getAllPlan (cfg : Config) (qo : QueryOptions) : QueryPlan :=
  { eqFilters := qo.filters
    excludeArchived := cfg.hasSoftDelete && !cfg.includeArchived
    sortBy := qo.sortBy.getD cfg.defaultSort.column
    ascending := (qo.sortOrder.getD (if cfg.defaultSort.ascending then "asc" else "desc")) == "asc"
    limitVal := if truthyNat qo.limit then qo.limit else none
    rangeVal :=
      if truthyNat qo.offset && truthyNat qo.limit then
        some (qo.offset.getD 0, qo.offset.getD 0 + qo.limit.getD 0 - 1)
      else none }

/-- Read one column of a row for filtering and ordering. -/
def colVal (r : Row) (k : String) : Option Val :=
  if k == "id" then some (.str r.id)
  else if k == "status" then some (.str r.status)
  else if k == "archived_at" then
    some (match r.archived_at with | some s => .str s | none => .null)
  else (r.attrs.find? (fun p => p.1 == k)).map (fun p => p.2)

/-- Column-value order used by the sort (null first; the exact order among
values is irrelevant to every claim). -/
def valLe : Val → Val → Bool
  | .null, _ => true
  | .str _, .null => false
  | .str a, .str b => decide (a ≤ b)

/-- Order on optional column values (absent column first). -/
def optValLe : Option Val → Option Val → Bool
  | none, _ => true
  | some _, none => false
  | some a, some b => valLe a b

/-- Row order for the configured sort column and direction. -/
def sortLe (col : String) (asc : Bool) (a b : Row) : Bool :=
  if asc then optValLe (colVal a col) (colVal b col)
  else optValLe (colVal b col) (colVal a col)

/-- Insertion into a sorted list. -/
def insertSorted (le : Row → Row → Bool) (x : Row) : List Row → List Row
  | [] => [x]
  | y :: ys => if le x y then x :: y :: ys else y :: insertSorted le x ys

/-- Insertion sort implementing the order clause. -/
def sortRows (le : Row → Row → Bool) : List Row → List Row
  | [] => []
  | x :: xs => insertSorted le x (sortRows le xs)

/-- Apply limit and range to the ordered rows; a range sets both offset and
page size and supersedes the bare limit. -/
def applyPagination (plan : QueryPlan) (l : List Row) : List Row :=
  match plan.rangeVal with
  | some ab => (l.drop ab.1).take (ab.2 + 1 - ab.1)
  | none =>
    match plan.limitVal with
    | some n => l.take n
    | none => l

/-- Execute a query plan against the table for the resolved owner. -/
def runPlan (plan : QueryPlan) (ownerId : String) (table : List Row) : List Row :=
  let base := table.filter (fun r =>
    r.owner == ownerId
    && (!plan.excludeArchived || r.archived_at == none)
    && plan.eqFilters.all (fun kv => colVal r kv.1 == some kv.2))
  applyPagination plan (sortRows (sortLe plan.sortBy plan.ascending) base)

/-- getAll: resolve tenant, run the beforeRead hook when present, build and
execute the scoped query. -/
def getAll (env : Env) (now : Nat) (st : St) (qo : QueryOptions) :
    Except CrudError (List Row) × St × List Event :=
  match getContext env with
  | .error e => (.error e, st, [])
  | .ok userId =>
    let ro := resolveOwner env userId
    let hookStep : Except CrudError Unit × List Event :=
      match env.options.hooks.beforeRead with
      | some f => (f (buildOperationContext "read" env.tableName none ro.1 now),
          [.hookCall "beforeRead"])
      | none => (.ok (), [])
    match hookStep.1 with
    | .error e => (.error e, st, ro.2 ++ hookStep.2)
    | .ok _ =>
      (.ok (runPlan (getAllPlan env.config qo) ro.1 st.table), st,
        ro.2 ++ hookStep.2 ++ [.storageRead])

/-- getOne: single-row fetch scoped by id and owner; a non-singleton match
is the structured single-row error of the storage collaborator. -/
def getOne (env : Env) (st : St) (id : String) :
    Except CrudError Row × St × List Event :=
  match getContext env with
  | .error e => (.error e, st, [])
  | .ok userId =>
    let ro := resolveOwner env userId
    match st.table.filter (rowMatches id ro.1) with
    | [r] => (.ok r, st, ro.2 ++ [.storageRead])
    | _ => (.error .notFound, st, ro.2 ++ [.storageRead])

/-- The body of create after the idempotency gate: resolve tenant, coerce,
inject the owner column, validate, beforeCreate hook, insert, afterCreate
hook, revalidate, store under the idempotency key. -/
def createBody (env : Env) (now : Nat) (st : St) (formData : FormData)
    (idempotencyKey : Option String) : Except CrudError Row × St × List Event :=
  match getContext env with
  | .error e => (.error e, st, [])
  | .ok userId =>
    let ro := resolveOwner env userId
    let processedData := coerceEmptyIds formData
    match env.insertSchema (setField processedData env.config.ownerIdColumn (.str ro.1)) with
    | .error e => (.error e, st, ro.2 ++ [.validate])
    | .ok validated =>
      let hookRes : Except CrudError Unit × List Event :=
        match env.options.hooks.beforeCreate with
        | some f => (f validated (buildOperationContext "create" env.tableName none ro.1 now),
            [.hookCall "beforeCreate"])
        | none => (.ok (), [])
      match hookRes.1 with
      | .error e => (.error e, st, ro.2 ++ [.validate] ++ hookRes.2)
      | .ok _ =>
        let row := env.genRow validated
        let st1 : St := { st with table := st.table ++ [row] }
        let afterRes : Except CrudError Unit × List Event :=
          match env.options.hooks.afterCreate with
          | some f => (f row (buildOperationContext "create" env.tableName (some row.id) ro.1 now),
              [.hookCall "afterCreate"])
          | none => (.ok (), [])
        match afterRes.1 with
        | .error e =>
          (.error e, st1, ro.2 ++ [.validate] ++ hookRes.2 ++ [.storageWrite] ++ afterRes.2)
        | .ok _ =>
          let st2 : St :=
            match idempotencyKey with
            | some k => { st1 with cache := setCachedResult now st1.cache k row }
            | none => st1
          (.ok row, st2,
            ro.2 ++ [.validate] ++ hookRes.2 ++ [.storageWrite] ++ afterRes.2 ++ [.revalidate])

/-- create: idempotency short-circuit, else the create body. -/
def create (env : Env) (now : Nat) (st : St) (formData : FormData)
    (idempotencyKey : Option String) : Except CrudError Row × St × List Event :=
  match idempotencyKey with
  | some k =>
    let gc := getCachedResult now st.cache k
    match gc.1 with
    | some r => (.ok r, { st with cache := gc.2 }, [])
    | none => createBody env now { st with cache := gc.2 } formData idempotencyKey
  | none => createBody env now st formData idempotencyKey

/-- The body of update after the idempotency gate: resolve tenant, coerce,
validate (no owner injection), pre-fetch the previous row only when an
afterUpdate hook is registered, beforeUpdate hook, the scoped
update-returning-single, afterUpdate hook, revalidate, idempotency store. -/
def updateBody (env : Env) (now : Nat) (st : St) (id : String) (formData : FormData)
    (idempotencyKey : Option String) : Except CrudError Row × St × List Event :=
  match getContext env with
  | .error e => (.error e, st, [])
  | .ok userId =>
    let ro := resolveOwner env userId
    let processedData := coerceEmptyIds formData
    match env.updateSchema processedData with
    | .error e => (.error e, st, ro.2 ++ [.validate])
    | .ok validated =>
      let prevStep : Option Row × List Event :=
        match env.options.hooks.afterUpdate with
        | some _ =>
          (match st.table.filter (rowMatches id ro.1) with
           | [r] => some r
           | _ => none, [.storageRead])
        | none => (none, [])
      let beforeRes : Except CrudError Unit × List Event :=
        match env.options.hooks.beforeUpdate with
        | some f => (f id validated (buildOperationContext "update" env.tableName (some id) ro.1 now),
            [.hookCall "beforeUpdate"])
        | none => (.ok (), [])
      match beforeRes.1 with
      | .error e => (.error e, st, ro.2 ++ [.validate] ++ prevStep.2 ++ beforeRes.2)
      | .ok _ =>
        let newTable := st.table.map (fun r =>
          if rowMatches id ro.1 r then applyData validated r else r)
        let st1 : St := { st with table := newTable }
        match st.table.filter (rowMatches id ro.1) with
        | [r0] =>
          let updated := applyData validated r0
          let afterRes : Except CrudError Unit × List Event :=
            match env.options.hooks.afterUpdate with
            | some f => (f updated prevStep.1
                (buildOperationContext "update" env.tableName (some id) ro.1 now),
                [.hookCall "afterUpdate"])
            | none => (.ok (), [])
          match afterRes.1 with
          | .error e =>
            (.error e, st1,
              ro.2 ++ [.validate] ++ prevStep.2 ++ beforeRes.2 ++ [.storageWrite] ++ afterRes.2)
          | .ok _ =>
            let st2 : St :=
              match idempotencyKey with
              | some k => { st1 with cache := setCachedResult now st1.cache k updated }
              | none => st1
            (.ok updated, st2,
              ro.2 ++ [.validate] ++ prevStep.2 ++ beforeRes.2 ++ [.storageWrite]
                ++ afterRes.2 ++ [.revalidate])
        | _ =>
          (.error .notFound, st1,
            ro.2 ++ [.validate] ++ prevStep.2 ++ beforeRes.2 ++ [.storageWrite])

/-- update: idempotency short-circuit, else the update body. -/
def update (env : Env) (now : Nat) (st : St) (id : String) (formData : FormData)
    (idempotencyKey : Option String) : Except CrudError Row × St × List Event :=
  match idempotencyKey with
  | some k =>
    let gc := getCachedResult now st.cache k
    match gc.1 with
    | some r => (.ok r, { st with cache := gc.2 }, [])
    | none => updateBody env now { st with cache := gc.2 } id formData idempotencyKey
  | none => updateBody env now st id formData idempotencyKey

/-- deleteRecord: pre-fetch only when an afterDelete hook is registered
(its lookup error is swallowed by destructuring), beforeDelete hook, then
either the soft-delete update (archived_at set to the current time, status
archived) or the hard delete, both scoped by id and owner and neither
returning a single row, so a zero-row match is not an error; afterDelete
fires only when the pre-fetch found a row; revalidate. -/
def deleteRecord (env : Env) (now : Nat) (st : St) (id : String) :
    Except CrudError Unit × St × List Event :=
  match getContext env with
  | .error e => (.error e, st, [])
  | .ok userId =>
    let ro := resolveOwner env userId
    let prevStep : Option Row × List Event :=
      match env.options.hooks.afterDelete with
      | some _ =>
        (match st.table.filter (rowMatches id ro.1) with
         | [r] => some r
         | _ => none, [.storageRead])
      | none => (none, [])
    let beforeRes : Except CrudError Unit × List Event :=
      match env.options.hooks.beforeDelete with
      | some f => (f id (buildOperationContext "delete" env.tableName (some id) ro.1 now),
          [.hookCall "beforeDelete"])
      | none => (.ok (), [])
    match beforeRes.1 with
    | .error e => (.error e, st, ro.2 ++ prevStep.2 ++ beforeRes.2)
    | .ok _ =>
      let newTable :=
        if env.config.hasSoftDelete then
          st.table.map (fun r =>
            if rowMatches id ro.1 r then
              { r with archived_at := some (isoOf now), status := "archived" }
            else r)
        else st.table.filter (fun r => !(rowMatches id ro.1 r))
      let st1 : St := { st with table := newTable }
      let afterRes : Except CrudError Unit × List Event :=
        match env.options.hooks.afterDelete, prevStep.1 with
        | some f, some d =>
          (f d (buildOperationContext "delete" env.tableName (some id) ro.1 now),
            [.hookCall "afterDelete"])
        | _, _ => (.ok (), [])
      match afterRes.1 with
      | .error e =>
        (.error e, st1, ro.2 ++ prevStep.2 ++ beforeRes.2 ++ [.storageWrite] ++ afterRes.2)
      | .ok _ =>
        (.ok (), st1,
          ro.2 ++ prevStep.2 ++ beforeRes.2 ++ [.storageWrite] ++ afterRes.2 ++ [.revalidate])

/-- archive: guard on the soft-delete capability, then delegate entirely to
deleteRecord. -/
def archive (env : Env) (now : Nat) (st : St) (id : String) :
    Except CrudError Unit × St × List Event :=
  if env.config.hasSoftDelete then deleteRecord env now st id
  else (.error (.unsupportedOperation env.tableName), st, [])

/-- unarchive: guard on the soft-delete capability, resolve tenant, set
archived_at to null and status to active on the id-and-owner scope (no
single-row demand, so a zero-row match is not an error), no lifecycle
hooks, then revalidate. -/
def unarchive (env : Env) (now : Nat) (st : St) (id : String) :
    Except CrudError Unit × St × List Event :=
  if env.config.hasSoftDelete then
    match getContext env with
    | .error e => (.error e, st, [])
    | .ok userId =>
      let ro := resolveOwner env userId
      let newTable := st.table.map (fun r =>
        if rowMatches id ro.1 r then { r with archived_at := none, status := "active" }
        else r)
      (.ok (), { st with table := newTable }, ro.2 ++ [.storageWrite, .revalidate])
  else (.error (.unsupportedOperation env.tableName), st, [])

/-- The bundle returned by the factory: archive and unarchive are present
only when soft delete is enabled. -/
structure CRUDOperations where
  getAll : Nat → St → QueryOptions → Except CrudError (List Row) × St × List Event
  getOne : St → String → Except CrudError Row × St × List Event
  create : Nat → St → FormData → Option String → Except CrudError Row × St × List Event
  update : Nat → St → String → FormData → Option String → Except CrudError Row × St × List Event
  delete : Nat → St → String → Except CrudError Unit × St × List Event
  archive : Option (Nat → St → String → Except CrudError Unit × St × List Event)
  unarchive : Option (Nat → St → String → Except CrudError Unit × St × List Event)

/-- createCRUDOperations: assemble the operation set for one table. -/
def createCRUDOperations (env : Env) : CRUDOperations :=
  { getAll := getAll env
    getOne := getOne env
    create := create env
    update := update env
    delete := deleteRecord env
    archive := if env.config.hasSoftDelete then some (archive env) else none
    unarchive := if env.config.hasSoftDelete then some (unarchive env) else none }

/-- Whether a key would miss the idempotency cache right now (no key given,
or lookup returns nothing). -/
def isCacheMiss (now : Nat) (c : Cache) : Option String → Bool
  | none => true
  | some k => ((getCachedResult now c k).1).isNone

/-- Row used by concrete witnesses. -/
def rowW : Row :=
  { id := "r1", owner := "u1", archived_at := none, status := "active", attrs := [] }

/-- Trivial schema used by witness environments: accept the payload. -/
def acceptSchema : FormData → Except CrudError FormData :=
  fun d => .ok d

/-- Witness storage generator for the first instance: the persisted row the
collaborator returns for a validated insert. -/
def genRowA (d : FormData) : Row :=
  { id := "new1", owner := "u1", archived_at := none, status := "active", attrs := d }

/-- Witness storage generator for the second instance. -/
def genRowB (d : FormData) : Row :=
  { id := "new2", owner := "u1", archived_at := none, status := "active", attrs := d }

/-- Witness factory instance on the contacts table, default options. -/
def envA : Env :=
  { tableName := "contacts", insertSchema := acceptSchema, updateSchema := acceptSchema,
    auth := some "u1", genRow := genRowA }

/-- A second witness factory instance on a different table. -/
def envB : Env :=
  { tableName := "projects", insertSchema := acceptSchema, updateSchema := acceptSchema,
    auth := some "u1", genRow := genRowB }

/-- Witness payloads and start state. -/
def d1W : FormData := [("name", Val.str "Jane")]

def d2W : FormData := [("name", Val.str "Other")]

def st0W : St := { cache := [], table := [] }

/-- The row the first witness call persists and returns. -/
def rowW1 : Row :=
  { id := "new1", owner := "u1", archived_at := none, status := "active",
    attrs := [("name", Val.str "Jane"), ("owner_id", Val.str "u1")] }

/-- State after the first witness call: row inserted, result cached. -/
def st1W : St :=
  { cache := [("k", { result := rowW1, timestamp := 0 })], table := [rowW1] }

/-- Effect trace of the first witness call. -/
def trW : List Event := [.validate, .storageWrite, .revalidate]

/-- A row owned by another tenant. -/
def foreignRow : Row :=
  { id := "x1", owner := "other", archived_at := none, status := "active", attrs := [] }

/-- State whose only row belongs to another tenant. -/
def stForeignW : St := { cache := [], table := [foreignRow] }

/-- Witness factory instance configured without soft delete. -/
def envNoSoft : Env :=
  { tableName := "events_log", insertSchema := acceptSchema, updateSchema := acceptSchema,
    options := { hasSoftDelete := some false }, auth := some "u1", genRow := genRowA }

/-- Default contacts configuration used by concrete query-plan checks. -/
def cfgW : Config := resolveConfig "contacts" {}

/-- Query options with limit 10 and offset 0, both present. -/
def qoW : QueryOptions := { limit := some 10, offset := some 0 }

/-- An archived row owned by the caller. -/
def archivedRowW : Row :=
  { id := "r2", owner := "u1", archived_at := some "100", status := "archived", attrs := [] }

/-- State holding one active and one archived row of the caller. -/
def stListW : St := { cache := [], table := [rowW, archivedRowW] }

/-- Schema that rejects every payload, for the C7 witness. -/
def rejectSchema : FormData → Except CrudError FormData :=
  fun _ => .error (.validationError "name must not be empty")

/-- Failing beforeCreate hook for the C7 witness. -/
def failBeforeCreate : FormData → OperationContext → Except CrudError Unit :=
  fun _ _ => .error (.hookError "beforeCreate failed")

/-- Failing beforeUpdate hook for the C7 witness. -/
def failBeforeUpdate : String → FormData → OperationContext → Except CrudError Unit :=
  fun _ _ _ => .error (.hookError "beforeUpdate failed")

/-- Witness instance whose schemas reject every payload. -/
def envReject : Env :=
  { tableName := "contacts", insertSchema := rejectSchema, updateSchema := rejectSchema,
    auth := some "u1", genRow := genRowA }

/-- Witness instance whose before hooks fail. -/
def envFailHooks : Env :=
  { tableName := "contacts", insertSchema := acceptSchema, updateSchema := acceptSchema,
    options := { hooks := { beforeCreate := some failBeforeCreate,
                            beforeUpdate := some failBeforeUpdate } },
    auth := some "u1", genRow := genRowA }

end CrudFactory

namespace CrudFactory

theorem cacheGet_cleanup_none {c : Cache} {k : String} (now : Nat)
    (h : cacheGet c k = none) : cacheGet (cleanupExpiredCache now c) k = none := by
  unfold cacheGet at h ⊢
  rw [Option.map_eq_none'] at h ⊢
  rw [List.find?_eq_none] at h ⊢
  intro x hx
  exact h x (List.mem_of_mem_filter hx)

theorem cacheGet_cons_self (k : String) (e : CacheEntry) (c : Cache) :
    cacheGet ((k, e) :: c) k = some e := by
  simp [cacheGet, List.find?]

theorem cleanup_cons_fresh {now : Nat} {e : CacheEntry} (k : String) (c : Cache)
    (h : now - e.timestamp ≤ CACHE_TTL_MS) :
    cleanupExpiredCache now ((k, e) :: c) = (k, e) :: cleanupExpiredCache now c := by
  have hc : ¬ (now - e.timestamp > CACHE_TTL_MS) := by omega
  unfold cleanupExpiredCache
  rw [List.filter_cons]
  simp [hc]

/-- C2: getCachedResult first evicts, from the whole cache, every entry whose
age exceeds the 5-minute TTL, and returns a hit only from an entry for the
key whose age is within the TTL; an entry older than the TTL is never
returned as a hit. -/
theorem c2_lookup_evicts_then_fresh_hit (now : Nat) (c : Cache) (k : String) :
    (getCachedResult now c k).2 =
      c.filter (fun p => !(decide (now - p.2.timestamp > CACHE_TTL_MS))) ∧
    (∀ r, (getCachedResult now c k).1 = some r →
      ∃ p, p ∈ c ∧ p.1 = k ∧ now - p.2.timestamp ≤ CACHE_TTL_MS ∧ p.2.result = r) := by
  constructor
  · unfold getCachedResult cleanupExpiredCache
    cases h : cacheGet (c.filter (fun p => !(decide (now - p.2.timestamp > CACHE_TTL_MS)))) k <;>
      simp [h]
  · intro r hr
    unfold getCachedResult at hr
    cases h : cacheGet (cleanupExpiredCache now c) k with
    | none => simp [h] at hr
    | some e =>
      simp only [h] at hr
      by_cases hf : now - e.timestamp ≤ CACHE_TTL_MS
      · simp only [if_pos hf] at hr
        obtain ⟨p, hp, hkey⟩ : ∃ p, List.find? (fun p => p.1 == k) (cleanupExpiredCache now c) = some p ∧ p.2 = e := by
          unfold cacheGet at h
          cases hfind : List.find? (fun p => p.1 == k) (cleanupExpiredCache now c) with
          | none => rw [hfind] at h; simp at h
          | some q => rw [hfind] at h; simp at h; exact ⟨q, rfl, h⟩
        refine ⟨p, ?_, ?_, ?_, ?_⟩
        · exact List.mem_of_mem_filter (List.mem_of_find?_eq_some hp)
        · have := List.find?_some hp
          exact eq_of_beq this
        · rw [hkey]; exact hf
        · rw [hkey]; cases hr; rfl
      · simp only [if_neg hf] at hr
        cases hr

/-- Witness for C2 at a concrete cache with one fresh entry. -/
theorem c2_witness :
    ∃ p, p ∈ ([("k", { result := rowW, timestamp := 0 })] : Cache) ∧
      p.1 = "k" ∧ 5 - p.2.timestamp ≤ CACHE_TTL_MS ∧ p.2.result = rowW :=
  (c2_lookup_evicts_then_fresh_hit 5 [("k", { result := rowW, timestamp := 0 })] "k").2
    rowW (by decide)

theorem createBody_stores {env : Env} {now : Nat} {st : St} {d : FormData} {k : String}
    {r : Row} {st' : St} {tr : List Event}
    (h : createBody env now st d (some k) = (.ok r, st', tr)) :
    st'.cache = setCachedResult now st.cache k r := by
  unfold createBody at h
  split at h
  · simp at h
  · rename_i userId heq
    dsimp only at h
    cases hs : env.insertSchema
        (setField (coerceEmptyIds d) env.config.ownerIdColumn
          (Val.str (resolveOwner env userId).1)) with
    | error e => rw [hs] at h; simp at h
    | ok v =>
      rw [hs] at h
      dsimp only [] at h
      repeat' split at h
      all_goals
        first
          | (simp only [Prod.mk.injEq, Except.ok.injEq] at h
             obtain ⟨hr, hst, -⟩ := h
             subst hr
             rw [← hst])
          | (exfalso; simp at h)

theorem create_hit {env : Env} {now : Nat} {st : St} {d : FormData} {k : String}
    {e : CacheEntry}
    (hg : cacheGet (cleanupExpiredCache now st.cache) k = some e)
    (hf : now - e.timestamp ≤ CACHE_TTL_MS) :
    create env now st d (some k) =
      (.ok e.result, { st with cache := cleanupExpiredCache now st.cache }, []) := by
  unfold create getCachedResult
  simp only [hg, if_pos hf]

theorem update_hit {env : Env} {now : Nat} {st : St} {i : String} {d : FormData} {k : String}
    {e : CacheEntry}
    (hg : cacheGet (cleanupExpiredCache now st.cache) k = some e)
    (hf : now - e.timestamp ≤ CACHE_TTL_MS) :
    update env now st i d (some k) =
      (.ok e.result, { st with cache := cleanupExpiredCache now st.cache }, []) := by
  unfold update getCachedResult
  simp only [hg, if_pos hf]

theorem replay_within_ttl (env1 env2 : Env) (t1 t2 : Nat) (st0 st1 : St)
    (d1 d2 : FormData) (i k : String) (r : Row) (tr : List Event)
    (hfresh : cacheGet st0.cache k = none)
    (h1 : create env1 t1 st0 d1 (some k) = (.ok r, st1, tr))
    (httl : t2 - t1 ≤ CACHE_TTL_MS) :
    create env2 t2 st1 d2 (some k) =
      (.ok r, { st1 with cache := cleanupExpiredCache t2 st1.cache }, []) ∧
    update env2 t2 st1 i d2 (some k) =
      (.ok r, { st1 with cache := cleanupExpiredCache t2 st1.cache }, []) := by
  have hm : cacheGet (cleanupExpiredCache t1 st0.cache) k = none :=
    cacheGet_cleanup_none t1 hfresh
  have hbody : createBody env1 t1 { st0 with cache := cleanupExpiredCache t1 st0.cache }
      d1 (some k) = (.ok r, st1, tr) := by
    unfold create getCachedResult at h1
    simp only [hm] at h1
    exact h1
  have hcache : st1.cache = setCachedResult t1 (cleanupExpiredCache t1 st0.cache) k r :=
    createBody_stores hbody
  have hclean : cleanupExpiredCache t2 st1.cache =
      (k, ({ result := r, timestamp := t1 } : CacheEntry)) ::
        cleanupExpiredCache t2
          ((cleanupExpiredCache t1 st0.cache).filter (fun p => p.1 != k)) := by
    rw [hcache]
    exact cleanup_cons_fresh _ _ httl
  have hget : cacheGet (cleanupExpiredCache t2 st1.cache) k =
      some { result := r, timestamp := t1 } := by
    rw [hclean]
    exact cacheGet_cons_self _ _ _
  exact ⟨create_hit hget httl, update_hit hget httl⟩

/-- C1: when a mutating call (create or update) supplies an idempotency key
stored by an earlier successful call within the TTL window, the call
returns the first call result immediately: its effect trace is empty (no
validation, no hook, no storage access), the table is untouched, and the
returned row equals the first call result. -/
theorem c1_cached_key_short_circuits (env1 env2 : Env) (t1 t2 : Nat) (st0 st1 : St)
    (d1 d2 : FormData) (i k : String) (r : Row) (tr : List Event)
    (hfresh : cacheGet st0.cache k = none)
    (h1 : create env1 t1 st0 d1 (some k) = (.ok r, st1, tr))
    (httl : t2 - t1 ≤ CACHE_TTL_MS) :
    create env2 t2 st1 d2 (some k) =
      (.ok r, { st1 with cache := cleanupExpiredCache t2 st1.cache }, []) ∧
    update env2 t2 st1 i d2 (some k) =
      (.ok r, { st1 with cache := cleanupExpiredCache t2 st1.cache }, []) :=
  replay_within_ttl env1 env2 t1 t2 st0 st1 d1 d2 i k r tr hfresh h1 httl

/-- Witness for C1: a concrete create on the contacts instance followed by
a second call with the same key 100 milliseconds later. -/
theorem c1_witness :
    create envA 100 st1W d2W (some "k") =
      (.ok rowW1, { st1W with cache := cleanupExpiredCache 100 st1W.cache }, []) ∧
    update envA 100 st1W "i" d2W (some "k") =
      (.ok rowW1, { st1W with cache := cleanupExpiredCache 100 st1W.cache }, []) :=
  c1_cached_key_short_circuits envA envA 0 100 st0W st1W d1W d2W "i" "k" rowW1 trW
    (by decide) (by decide) (by decide)

/-- C4 as stated fails: the idempotency cache is declared at module level
in the source, outside the factory function, so distinct factory instances
share one cache. Concretely, a create through the contacts instance stores
the row under key k, and a create through the projects instance 100 ms
later returns that very row with an empty effect trace, that is, served
from the cache the other instance filled. -/
theorem c4_counterexample :
    envA.tableName ≠ envB.tableName ∧
    create envA 0 st0W d1W (some "k") = (.ok rowW1, st1W, trW) ∧
    create envB 100 st1W d2W (some "k") =
      (.ok rowW1, { st1W with cache := cleanupExpiredCache 100 st1W.cache }, []) := by
  decide

/-- C4 amended: the idempotency cache is process-wide and shared by every
factory instance; a result stored under a key through one instance is
returned as a hit by a lookup through any other instance (here: an
instance for a different table) within the TTL window. -/
theorem c4_cache_shared_across_instances (env1 env2 : Env) (t1 t2 : Nat)
    (st0 st1 : St) (d1 d2 : FormData) (k : String) (r : Row) (tr : List Event)
    (hdiff : env1.tableName ≠ env2.tableName)
    (hfresh : cacheGet st0.cache k = none)
    (h1 : create env1 t1 st0 d1 (some k) = (.ok r, st1, tr))
    (httl : t2 - t1 ≤ CACHE_TTL_MS) :
    (create env2 t2 st1 d2 (some k)).1 = .ok r := by
  rw [(replay_within_ttl env1 env2 t1 t2 st0 st1 d1 d2 "i" k r tr hfresh h1 httl).1]

/-- Witness for the amended C4 at the two concrete instances. -/
theorem c4_witness : (create envB 100 st1W d2W (some "k")).1 = .ok rowW1 :=
  c4_cache_shared_across_instances envA envB 0 100 st0W st1W d1W d2W "k" rowW1 trW
    (by decide) (by decide) (by decide) (by decide)

theorem resolveOwner_raw {env : Env} (u : String)
    (hp : env.config.useProfileLookup = false) : resolveOwner env u = (u, []) := by
  simp [resolveOwner, hp]

theorem map_unmatched_id {p : Row → Bool} {f : Row → Row} :
    ∀ l : List Row, l.filter p = [] →
      l.map (fun r => if p r then f r else r) = l := by
  intro l
  induction l with
  | nil => intro _; rfl
  | cons a as ih =>
    intro h
    rw [List.filter_eq_nil_iff] at h
    have hpa := h a (List.mem_cons_self a as)
    have htail : as.filter p = [] :=
      List.filter_eq_nil_iff.mpr (fun x hx => h x (List.mem_cons_of_mem a hx))
    simp [hpa, ih htail]

theorem filter_not_of_filter_nil {p : Row → Bool} :
    ∀ l : List Row, l.filter p = [] → l.filter (fun r => !(p r)) = l := by
  intro l
  induction l with
  | nil => intro _; rfl
  | cons a as ih =>
    intro h
    rw [List.filter_eq_nil_iff] at h
    have hpa := h a (List.mem_cons_self a as)
    have htail : as.filter p = [] :=
      List.filter_eq_nil_iff.mpr (fun x hx => h x (List.mem_cons_of_mem a hx))
    simp [List.filter_cons, hpa, ih htail]

/-- C3 as stated fails for delete: deleting a record owned by another
tenant completes successfully instead of failing with a NotFound-class
error, because the scoped soft-delete mutation demands no returned row. -/
theorem c3_counterexample :
    foreignRow.owner ≠ "u1" ∧ envA.auth = some "u1" ∧
    (deleteRecord envA 0 stForeignW "x1").1 = .ok () := by
  decide

/-- C3 amended: on an id-plus-owner scope matching zero rows (nonexistent
id or a foreign tenant row), getOne and update fail with NotFound and
return no row content, while delete completes without error and leaves the
table unchanged (zero rows affected); in no case is any content of the
foreign record returned. -/
theorem c3_foreign_scope_not_found (env : Env) (now : Nat) (st : St) (i u : String)
    (d v : FormData)
    (ha : env.auth = some u) (hp : env.config.useProfileLookup = false)
    (hbu : env.options.hooks.beforeUpdate = none)
    (hbd : env.options.hooks.beforeDelete = none)
    (hv : env.updateSchema (coerceEmptyIds d) = .ok v)
    (hzero : st.table.filter (rowMatches i u) = []) :
    (getOne env st i).1 = .error .notFound ∧
    (update env now st i d none).1 = .error .notFound ∧
    (update env now st i d none).2.1.table = st.table ∧
    (deleteRecord env now st i).1 = .ok () ∧
    (deleteRecord env now st i).2.1.table = st.table := by
  have hro := @resolveOwner_raw env u hp
  refine ⟨?_, ?_, ?_, ?_, ?_⟩
  · simp [getOne, getContext, ha, hro, hzero]
  · cases hau : env.options.hooks.afterUpdate <;>
      simp [update, updateBody, getContext, ha, hro, hv, hbu, hau, hzero]
  · cases hau : env.options.hooks.afterUpdate <;>
      simp [update, updateBody, getContext, ha, hro, hv, hbu, hau, hzero,
        map_unmatched_id _ hzero]
  · cases had : env.options.hooks.afterDelete <;>
      simp [deleteRecord, getContext, ha, hro, hbd, had, hzero]
  · cases had : env.options.hooks.afterDelete <;>
      cases hsd : env.config.hasSoftDelete <;>
        simp [deleteRecord, getContext, ha, hro, hbd, had, hsd, hzero,
          map_unmatched_id _ hzero, filter_not_of_filter_nil _ hzero]

/-- Witness for the amended C3: the stored row belongs to tenant other,
the caller is tenant u1. -/
theorem c3_witness :
    (getOne envA stForeignW "x1").1 = .error .notFound ∧
    (update envA 7 stForeignW "x1" d2W none).1 = .error .notFound ∧
    (update envA 7 stForeignW "x1" d2W none).2.1.table = stForeignW.table ∧
    (deleteRecord envA 7 stForeignW "x1").1 = .ok () ∧
    (deleteRecord envA 7 stForeignW "x1").2.1.table = stForeignW.table :=
  c3_foreign_scope_not_found envA 7 stForeignW "x1" "u1" d2W (coerceEmptyIds d2W)
    rfl (by decide) rfl rfl rfl (by decide)

/-- C10: unarchive on an id-plus-owner scope matching zero rows completes
successfully (returns unit) rather than failing with any NotFound-class
error; no lifecycle hook fires and the revalidation notify still runs. -/
theorem c10_unarchive_zero_rows (env : Env) (now : Nat) (st : St) (i u : String)
    (ha : env.auth = some u) (hp : env.config.useProfileLookup = false)
    (hsd : env.config.hasSoftDelete = true)
    (hzero : st.table.filter (rowMatches i u) = []) :
    unarchive env now st i = (.ok (), st, [.storageWrite, .revalidate]) := by
  have hro := @resolveOwner_raw env u hp
  simp [unarchive, hsd, getContext, ha, hro, map_unmatched_id _ hzero]

/-- Witness for C10 on a state holding only a foreign tenant row. -/
theorem c10_witness :
    unarchive envA 7 stForeignW "x1" = (.ok (), stForeignW, [.storageWrite, .revalidate]) :=
  c10_unarchive_zero_rows envA 7 stForeignW "x1" "u1" rfl (by decide) (by decide) (by decide)

/-- C8: archive and unarchive on a factory configured without soft delete
fail with the UnsupportedOperation error and leave the state untouched,
and the assembled operation set defines neither archive nor unarchive. -/
theorem c8_unsupported_without_soft_delete (env : Env) (now : Nat) (st : St) (i : String)
    (h : env.config.hasSoftDelete = false) :
    archive env now st i = (.error (.unsupportedOperation env.tableName), st, []) ∧
    unarchive env now st i = (.error (.unsupportedOperation env.tableName), st, []) ∧
    (createCRUDOperations env).archive = none ∧
    (createCRUDOperations env).unarchive = none := by
  refine ⟨?_, ?_, ?_, ?_⟩ <;> simp [archive, unarchive, createCRUDOperations, h]

/-- Witness for C8 on the instance configured with hasSoftDelete false. -/
theorem c8_witness :
    archive envNoSoft 3 stForeignW "x1" =
      (.error (.unsupportedOperation envNoSoft.tableName), stForeignW, []) ∧
    unarchive envNoSoft 3 stForeignW "x1" =
      (.error (.unsupportedOperation envNoSoft.tableName), stForeignW, []) ∧
    (createCRUDOperations envNoSoft).archive = none ∧
    (createCRUDOperations envNoSoft).unarchive = none :=
  c8_unsupported_without_soft_delete envNoSoft 3 stForeignW "x1" (by decide)

end CrudFactory

namespace CrudFactory

theorem row_reset_eq {r : Row} (h1 : r.archived_at = none) (h2 : r.status = "active") :
    { r with archived_at := none, status := "active" } = r := by
  cases r
  simp_all

theorem arch_unarch_table {i u : String} {t1 : Nat} :
    ∀ l : List Row,
      (∀ r ∈ l, r.id = i → r.owner = u → r.archived_at = none ∧ r.status = "active") →
      (l.map (fun r =>
          if rowMatches i u r then
            { r with archived_at := some (isoOf t1), status := "archived" }
          else r)).map
        (fun r =>
          if rowMatches i u r then { r with archived_at := none, status := "active" }
          else r) = l := by
  intro l
  induction l with
  | nil => intro _; rfl
  | cons a as ih =>
    intro h
    simp only [List.map_cons, List.cons.injEq]
    constructor
    · by_cases hm : rowMatches i u a = true
      · have hio : a.id = i ∧ a.owner = u := by
          have := hm
          simp [rowMatches] at this
          exact this
        obtain ⟨h1, h2⟩ := h a (List.mem_cons_self a as) hio.1 hio.2
        have hm2 : rowMatches i u
            { a with archived_at := some (isoOf t1), status := "archived" } = true := hm
        rw [if_pos hm, if_pos hm2]
        exact row_reset_eq h1 h2
      · rw [if_neg hm, if_neg hm]
    · exact ih (fun r hr => h r (List.mem_cons_of_mem a hr))

/-- C9: for records owned by the caller that are active (archived_at null,
status active) on the id scope, archive followed by unarchive succeeds and
restores the table exactly: archived_at and status return to their
pre-archive values and every other field of every row is unchanged. -/
theorem c9_archive_unarchive_round_trip (env : Env) (t1 t2 : Nat) (st : St) (i u : String)
    (ha : env.auth = some u) (hp : env.config.useProfileLookup = false)
    (hsd : env.config.hasSoftDelete = true)
    (hbd : env.options.hooks.beforeDelete = none)
    (had : env.options.hooks.afterDelete = none)
    (hpre : ∀ r ∈ st.table, r.id = i → r.owner = u →
      r.archived_at = none ∧ r.status = "active") :
    (archive env t1 st i).1 = .ok () ∧
    (unarchive env t2 (archive env t1 st i).2.1 i).1 = .ok () ∧
    (unarchive env t2 (archive env t1 st i).2.1 i).2.1.table = st.table := by
  have hro := @resolveOwner_raw env u hp
  have harch : archive env t1 st i =
      (.ok (), { st with table := st.table.map (fun r =>
          if rowMatches i u r then
            { r with archived_at := some (isoOf t1), status := "archived" }
          else r) }, [.storageWrite, .revalidate]) := by
    simp [archive, hsd, deleteRecord, getContext, ha, hro, hbd, had]
  rw [harch]
  refine ⟨rfl, ?_, ?_⟩ <;>
    simp [unarchive, hsd, getContext, ha, hro, arch_unarch_table _ hpre]

/-- State holding one active row owned by the caller, for the C9 witness. -/
theorem c9_witness :
    (archive envA 3 { cache := [], table := [rowW] } "r1").1 = .ok () ∧
    (unarchive envA 9 (archive envA 3 { cache := [], table := [rowW] } "r1").2.1 "r1").1 =
      .ok () ∧
    (unarchive envA 9 (archive envA 3 { cache := [], table := [rowW] } "r1").2.1 "r1").2.1.table =
      ({ cache := [], table := [rowW] } : St).table :=
  c9_archive_unarchive_round_trip envA 3 9 { cache := [], table := [rowW] } "r1" "u1"
    rfl (by decide) (by decide) rfl rfl (by decide)

end CrudFactory

namespace CrudFactory

/-- C5 as stated fails: limit 10 and offset 0 are both present, but the
truthiness guard on offset skips the range clause. -/
theorem c5_counterexample :
    qoW.limit.isSome = true ∧ qoW.offset.isSome = true ∧
    (getAllPlan cfgW qoW).rangeVal = none := by
  decide

theorem truthy_ge_one {o : Option Nat} (h : truthyNat o = true) : 1 ≤ o.getD 0 := by
  cases o with
  | none => simp [truthyNat] at h
  | some n =>
    simp [truthyNat] at h
    simp only [Option.getD_some]
    omega

/-- C5 amended: the range clause is applied exactly when both limit and
offset are present and nonzero (JS truthiness), so offset 0 or limit 0
never triggers it; when it applies, the selected window is
[offset, offset+limit-1], that is, drop offset rows then take limit rows;
when only the limit is truthy the first limit rows are taken; otherwise no
pagination applies. -/
theorem c5_range_truthiness (cfg : Config) (qo : QueryOptions) (l : List Row) :
    ((getAllPlan cfg qo).rangeVal.isSome = (truthyNat qo.offset && truthyNat qo.limit)) ∧
    applyPagination (getAllPlan cfg qo) l =
      (if truthyNat qo.offset && truthyNat qo.limit then
        (l.drop (qo.offset.getD 0)).take (qo.limit.getD 0)
      else if truthyNat qo.limit then l.take (qo.limit.getD 0)
      else l) := by
  constructor
  · by_cases h : (truthyNat qo.offset && truthyNat qo.limit) = true <;>
      simp [getAllPlan, h]
  · by_cases h : (truthyNat qo.offset && truthyNat qo.limit) = true
    · have hlim : 1 ≤ qo.limit.getD 0 :=
        truthy_ge_one (Bool.and_elim_right h)
      have harith : qo.offset.getD 0 + qo.limit.getD 0 - 1 + 1 - qo.offset.getD 0 =
          qo.limit.getD 0 := by omega
      simp [applyPagination, getAllPlan, h, harith]
    · by_cases h2 : truthyNat qo.limit = true
      · cases hql : qo.limit with
        | none => rw [hql] at h2; simp [truthyNat] at h2
        | some n =>
          rw [hql] at h2
          have h3 := h
          rw [hql] at h3
          simp only [Bool.and_eq_true, not_and] at h3
          have ho : truthyNat qo.offset = false := by
            cases hto : truthyNat qo.offset
            · rfl
            · exact absurd h2 (h3 hto)
          simp [applyPagination, getAllPlan, ho, h2, hql]
      · simp [applyPagination, getAllPlan, h, h2]

theorem mem_insertSorted {le : Row → Row → Bool} {x y : Row} :
    ∀ l : List Row, y ∈ insertSorted le x l → y = x ∨ y ∈ l := by
  intro l
  induction l with
  | nil =>
    intro h
    simp [insertSorted] at h
    exact Or.inl h
  | cons a as ih =>
    intro h
    unfold insertSorted at h
    by_cases hle : le x a = true
    · rw [if_pos hle] at h
      rcases List.mem_cons.mp h with h1 | h2
      · exact Or.inl h1
      · exact Or.inr h2
    · rw [if_neg hle] at h
      rcases List.mem_cons.mp h with h1 | h2
      · exact Or.inr (h1 ▸ List.mem_cons_self a as)
      · rcases ih h2 with h3 | h4
        · exact Or.inl h3
        · exact Or.inr (List.mem_cons_of_mem a h4)

theorem mem_sortRows {le : Row → Row → Bool} {y : Row} :
    ∀ l : List Row, y ∈ sortRows le l → y ∈ l := by
  intro l
  induction l with
  | nil => intro h; simp [sortRows] at h
  | cons a as ih =>
    intro h
    unfold sortRows at h
    rcases mem_insertSorted _ h with h1 | h2
    · exact h1 ▸ List.mem_cons_self a as
    · exact List.mem_cons_of_mem a (ih h2)

theorem mem_applyPagination {plan : QueryPlan} {l : List Row} {y : Row}
    (h : y ∈ applyPagination plan l) : y ∈ l := by
  unfold applyPagination at h
  split at h
  · exact List.drop_subset _ _ (List.take_subset _ _ h)
  · split at h
    · exact List.take_subset _ _ h
    · exact h

theorem runPlan_archived_excluded {plan : QueryPlan} {ownerId : String}
    {table : List Row} {r : Row}
    (hex : plan.excludeArchived = true)
    (h : r ∈ runPlan plan ownerId table) : r.archived_at = none := by
  unfold runPlan at h
  dsimp only at h
  have h1 := mem_sortRows _ (mem_applyPagination h)
  rw [List.mem_filter] at h1
  have h2 := h1.2
  rw [hex] at h2
  simp only [Bool.not_true, Bool.false_or, Bool.and_eq_true, beq_iff_eq] at h2
  exact h2.1.2

theorem getAll_ok_shape {env : Env} {now : Nat} {st : St} {qo : QueryOptions}
    {l : List Row} (h : (getAll env now st qo).1 = .ok l) :
    ∃ ownerId, l = runPlan (getAllPlan env.config qo) ownerId st.table := by
  cases hau : env.auth with
  | none =>
    unfold getAll getContext at h
    rw [hau] at h
    simp at h
  | some u =>
    unfold getAll getContext at h
    rw [hau] at h
    dsimp only at h
    cases hbr : env.options.hooks.beforeRead with
    | none =>
      rw [hbr] at h
      dsimp only at h
      simp only [Except.ok.injEq] at h
      exact ⟨_, h.symm⟩
    | some f =>
      rw [hbr] at h
      dsimp only at h
      cases hf : f (buildOperationContext "read" env.tableName none (resolveOwner env u).1 now) with
      | error e =>
        rw [hf] at h
        simp at h
      | ok a =>
        rw [hf] at h
        dsimp only at h
        simp only [Except.ok.injEq] at h
        exact ⟨_, h.symm⟩

/-- C6: a list call on a soft-delete-enabled instance whose configuration
does not include archived rows never returns a row with a non-null
archived_at, whatever query options the call supplies (the call surface
offers no per-call archived toggle beyond the configuration). -/
theorem c6_list_excludes_archived (env : Env) (now : Nat) (st : St) (qo : QueryOptions)
    (l : List Row) (r : Row)
    (hsd : env.config.hasSoftDelete = true) (hia : env.config.includeArchived = false)
    (hres : (getAll env now st qo).1 = .ok l) (hr : r ∈ l) :
    r.archived_at = none := by
  obtain ⟨o, rfl⟩ := getAll_ok_shape hres
  have hex : (getAllPlan env.config qo).excludeArchived = true := by
    simp [getAllPlan, hsd, hia]
  exact runPlan_archived_excluded hex hr

/-- Witness for C6: the caller's table holds one active and one archived
row, and only the active row is listed. -/
theorem c6_witness : rowW.archived_at = none :=
  c6_list_excludes_archived envA 0 stListW {} [rowW] rowW
    (by decide) (by decide) (by decide) (by decide)

end CrudFactory

namespace CrudFactory

theorem create_miss {env : Env} {now : Nat} {st : St} {d : FormData} {k : String}
    (hm : (getCachedResult now st.cache k).1 = none) :
    create env now st d (some k) =
      createBody env now { st with cache := (getCachedResult now st.cache k).2 } d (some k) := by
  unfold create
  dsimp only
  rw [hm]

theorem update_miss {env : Env} {now : Nat} {st : St} {i : String} {d : FormData} {k : String}
    (hm : (getCachedResult now st.cache k).1 = none) :
    update env now st i d (some k) =
      updateBody env now { st with cache := (getCachedResult now st.cache k).2 } i d (some k) := by
  unfold update
  dsimp only
  rw [hm]

theorem createBody_validation_aborts {env : Env} {now : Nat} {st : St} {d : FormData}
    {ik : Option String} {u : String} {e : CrudError}
    (ha : env.auth = some u) (hp : env.config.useProfileLookup = false)
    (hv : env.insertSchema (setField (coerceEmptyIds d) env.config.ownerIdColumn (.str u)) =
      .error e) :
    createBody env now st d ik = (.error e, st, [.validate]) := by
  simp [createBody, getContext, ha, resolveOwner_raw u hp, hv]

theorem createBody_before_hook_aborts {env : Env} {now : Nat} {st : St} {d : FormData}
    {ik : Option String} {u : String} {v : FormData}
    {f : FormData → OperationContext → Except CrudError Unit} {e : CrudError}
    (ha : env.auth = some u) (hp : env.config.useProfileLookup = false)
    (hv : env.insertSchema (setField (coerceEmptyIds d) env.config.ownerIdColumn (.str u)) =
      .ok v)
    (hf : env.options.hooks.beforeCreate = some f)
    (he : f v (buildOperationContext "create" env.tableName none u now) = .error e) :
    createBody env now st d ik = (.error e, st, [.validate, .hookCall "beforeCreate"]) := by
  simp [createBody, getContext, ha, resolveOwner_raw u hp, hv, hf, he]

theorem updateBody_validation_aborts {env : Env} {now : Nat} {st : St} {i : String}
    {d : FormData} {ik : Option String} {u : String} {e : CrudError}
    (ha : env.auth = some u) (hp : env.config.useProfileLookup = false)
    (hv : env.updateSchema (coerceEmptyIds d) = .error e) :
    updateBody env now st i d ik = (.error e, st, [.validate]) := by
  simp [updateBody, getContext, ha, resolveOwner_raw u hp, hv]

theorem updateBody_before_hook_aborts {env : Env} {now : Nat} {st : St} {i : String}
    {d : FormData} {ik : Option String} {u : String} {v : FormData}
    {f : String → FormData → OperationContext → Except CrudError Unit} {e : CrudError}
    (ha : env.auth = some u) (hp : env.config.useProfileLookup = false)
    (hv : env.updateSchema (coerceEmptyIds d) = .ok v)
    (hf : env.options.hooks.beforeUpdate = some f)
    (he : f i v (buildOperationContext "update" env.tableName (some i) u now) = .error e) :
    (updateBody env now st i d ik).1 = .error e ∧
    (updateBody env now st i d ik).2.1 = st ∧
    Event.storageWrite ∉ (updateBody env now st i d ik).2.2 := by
  cases hau : env.options.hooks.afterUpdate <;>
    simp [updateBody, getContext, ha, resolveOwner_raw u hp, hv, hf, he, hau]

/-- C7: a create or update whose schema validation rejects the input, or
whose before hook (beforeCreate or beforeUpdate) fails, surfaces exactly
that error unwrapped and performs no storage write: the table is
unchanged and the effect trace contains no write. Stated for calls that do
not hit the idempotency cache (on a hit neither validation nor hooks run). -/
theorem c7_abort_before_any_write (env : Env) (now : Nat) (st : St) (d : FormData)
    (i u : String) (ik : Option String)
    (ha : env.auth = some u) (hp : env.config.useProfileLookup = false)
    (hmiss : isCacheMiss now st.cache ik = true) :
    (∀ e, env.insertSchema (setField (coerceEmptyIds d) env.config.ownerIdColumn (.str u)) =
        .error e →
      (create env now st d ik).1 = .error e ∧
      (create env now st d ik).2.1.table = st.table ∧
      Event.storageWrite ∉ (create env now st d ik).2.2) ∧
    (∀ v f e,
      env.insertSchema (setField (coerceEmptyIds d) env.config.ownerIdColumn (.str u)) =
        .ok v →
      env.options.hooks.beforeCreate = some f →
      f v (buildOperationContext "create" env.tableName none u now) = .error e →
      (create env now st d ik).1 = .error e ∧
      (create env now st d ik).2.1.table = st.table ∧
      Event.storageWrite ∉ (create env now st d ik).2.2) ∧
    (∀ e, env.updateSchema (coerceEmptyIds d) = .error e →
      (update env now st i d ik).1 = .error e ∧
      (update env now st i d ik).2.1.table = st.table ∧
      Event.storageWrite ∉ (update env now st i d ik).2.2) ∧
    (∀ v f e, env.updateSchema (coerceEmptyIds d) = .ok v →
      env.options.hooks.beforeUpdate = some f →
      f i v (buildOperationContext "update" env.tableName (some i) u now) = .error e →
      (update env now st i d ik).1 = .error e ∧
      (update env now st i d ik).2.1.table = st.table ∧
      Event.storageWrite ∉ (update env now st i d ik).2.2) := by
  refine ⟨?_, ?_, ?_, ?_⟩
  · intro e hv
    cases ik with
    | none =>
      rw [show create env now st d none = createBody env now st d none from rfl,
        createBody_validation_aborts ha hp hv]
      simp
    | some k =>
      have hm : (getCachedResult now st.cache k).1 = none := by
        simpa [isCacheMiss, Option.isNone_iff_eq_none] using hmiss
      rw [create_miss hm, createBody_validation_aborts ha hp hv]
      simp
  · intro v f e hv hf he
    cases ik with
    | none =>
      rw [show create env now st d none = createBody env now st d none from rfl,
        createBody_before_hook_aborts ha hp hv hf he]
      simp
    | some k =>
      have hm : (getCachedResult now st.cache k).1 = none := by
        simpa [isCacheMiss, Option.isNone_iff_eq_none] using hmiss
      rw [create_miss hm, createBody_before_hook_aborts ha hp hv hf he]
      simp
  · intro e hv
    cases ik with
    | none =>
      rw [show update env now st i d none = updateBody env now st i d none from rfl,
        updateBody_validation_aborts ha hp hv]
      simp
    | some k =>
      have hm : (getCachedResult now st.cache k).1 = none := by
        simpa [isCacheMiss, Option.isNone_iff_eq_none] using hmiss
      rw [update_miss hm, updateBody_validation_aborts ha hp hv]
      simp
  · intro v f e hv hf he
    cases ik with
    | none =>
      have hb := @updateBody_before_hook_aborts env now st i d none u v f e
        ha hp hv hf he
      refine ⟨hb.1, ?_, hb.2.2⟩
      rw [show update env now st i d none = updateBody env now st i d none from rfl, hb.2.1]
    | some k =>
      have hm : (getCachedResult now st.cache k).1 = none := by
        simpa [isCacheMiss, Option.isNone_iff_eq_none] using hmiss
      have hb := @updateBody_before_hook_aborts env now
        { st with cache := (getCachedResult now st.cache k).2 } i d (some k) u v f e
        ha hp hv hf he
      rw [update_miss hm]
      exact ⟨hb.1, by rw [hb.2.1], hb.2.2⟩

/-- Witness for C7: a rejecting schema and failing before hooks at
concrete calls, each aborting with its own error and leaving the table
empty. -/
theorem c7_witness :
    ((create envReject 0 st0W d1W none).1 = .error (.validationError "name must not be empty") ∧
      (create envReject 0 st0W d1W none).2.1.table = st0W.table ∧
      Event.storageWrite ∉ (create envReject 0 st0W d1W none).2.2) ∧
    ((create envFailHooks 0 st0W d1W none).1 = .error (.hookError "beforeCreate failed") ∧
      (create envFailHooks 0 st0W d1W none).2.1.table = st0W.table ∧
      Event.storageWrite ∉ (create envFailHooks 0 st0W d1W none).2.2) ∧
    ((update envReject 0 st0W "i" d1W none).1 = .error (.validationError "name must not be empty") ∧
      (update envReject 0 st0W "i" d1W none).2.1.table = st0W.table ∧
      Event.storageWrite ∉ (update envReject 0 st0W "i" d1W none).2.2) ∧
    ((update envFailHooks 0 st0W "i" d1W none).1 = .error (.hookError "beforeUpdate failed") ∧
      (update envFailHooks 0 st0W "i" d1W none).2.1.table = st0W.table ∧
      Event.storageWrite ∉ (update envFailHooks 0 st0W "i" d1W none).2.2) :=
  ⟨(c7_abort_before_any_write envReject 0 st0W d1W "i" "u1" none rfl (by decide) rfl).1
      _ rfl,
   (c7_abort_before_any_write envFailHooks 0 st0W d1W "i" "u1" none rfl (by decide) rfl).2.1
      _ _ _ rfl rfl rfl,
   (c7_abort_before_any_write envReject 0 st0W d1W "i" "u1" none rfl (by decide) rfl).2.2.1
      _ rfl,
   (c7_abort_before_any_write envFailHooks 0 st0W d1W "i" "u1" none rfl (by decide) rfl).2.2.2
      _ _ _ rfl rfl rfl⟩

end CrudFactory
